import Mathlib

/-!
# Verification of the `lci` LOLCODE parser core (`parser.h`)

A shallow embedding of the recursive-descent parser described by the
repository's `parser.h` (AST structures and the EBNF in its documentation
comments) and the accompanying specification.  The C implementation file
`parser.c` is not part of the sources at hand: the parsing functions below
are therefore modelled from the specification's description of each
production, while the AST data model is translated directly from the
structures in `parser.h`.

Conventions of the embedding:
* the token cursor (`Token ***` in C) becomes a `List Token`, the list of
  tokens not yet consumed; advancing the cursor is taking the tail;
* parse functions return `Except ParserError (result × List Token)`;
  the C convention of returning `NULL` after calling `error` becomes the
  `Except.error` branch, which records the diagnostic payload;
* the mutual recursion of statement/expression/block parsing is made
  total with an explicit fuel argument; the C code needs none because
  every statement consumes at least one token, and every theorem below
  holds for every fuel value;
* floating-point literal payloads are carried opaquely as their lexeme
  text (no claim depends on float arithmetic), integer payloads as `Int`.
-/

namespace Lci

/-- Token kinds of the tokenizer interface used by the parser: the keyword
set plus literal kinds, identifier, newline, bang and end-of-file. -/
inductive TokenType where
  | TT_HAI | TT_KTHXBYE | TT_NEWLINE | TT_EOF
  | TT_IDENTIFIER
  | TT_INTEGER | TT_FLOAT | TT_STRING | TT_WIN | TT_FAIL
  | TT_NOOB | TT_TROOF | TT_NUMBR | TT_NUMBAR | TT_YARN
  | TT_VISIBLE | TT_BANG | TT_GIMMEH
  | TT_R | TT_ISNOWA | TT_HASA | TT_ITZ | TT_ITZA | TT_RNOOB
  | TT_ORLY | TT_YARLY | TT_MEBBE | TT_NOWAI | TT_OIC
  | TT_WTF | TT_OMG | TT_OMGWTF
  | TT_GTFO | TT_FOUNDYR
  | TT_IMINYR | TT_IMOUTTAYR | TT_UPPIN | TT_NERFIN
  | TT_TIL | TT_WILE | TT_YR | TT_ANYR
  | TT_HOWIZ | TT_IFUSAYSO | TT_IZ | TT_MKAY
  | TT_MAEK | TT_A | TT_IT | TT_AN
  | TT_NOT
  | TT_SUMOF | TT_DIFFOF | TT_PRODUKTOF | TT_QUOSHUNTOF | TT_MODOF
  | TT_BIGGROF | TT_SMALLROF | TT_BOTHOF | TT_EITHEROF | TT_WONOF
  | TT_BOTHSAEM | TT_DIFFRINT
  | TT_ALLOF | TT_ANYOF | TT_SMOOSH
  deriving DecidableEq, Repr

open TokenType

/-- A token of the tokenizer contract: kind, lexeme image, pre-parsed
integer payload, source filename and 1-based line number. -/
structure Token where
  type : TokenType
  image : String
  ivalue : Int
  fname : String
  line : Nat
  deriving DecidableEq, Repr

/-- `IdentifierNode` of `parser.h`: the image naming the identifier, the
source file name and the line it occurred on. -/
structure IdentifierNode where
  image : String
  fname : String
  line : Nat
  deriving DecidableEq, Repr

/-- `ConstantType` of `parser.h`. -/
inductive ConstantType where
  | CT_INTEGER
  | CT_FLOAT
  | CT_BOOLEAN
  | CT_STRING
  | CT_NIL
  deriving DecidableEq, Repr

open ConstantType

/-- `ConstantData` of `parser.h` (a C union of int, float and string
payloads); the float payload is carried as its lexeme text. -/
inductive ConstantData where
  | i : Int → ConstantData
  | f : String → ConstantData
  | s : String → ConstantData
  deriving DecidableEq, Repr

/-- `ConstantNode` of `parser.h`: a constant type tag plus payload. -/
structure ConstantNode where
  type : ConstantType
  data : ConstantData
  deriving DecidableEq, Repr

/-- `createBooleanConstantNode`: a CT_BOOLEAN constant with integer data. -/
def createBooleanConstantNode (i : Int) : ConstantNode :=
  ⟨CT_BOOLEAN, ConstantData.i i⟩

/-- `createIntegerConstantNode`: a CT_INTEGER constant with integer data. -/
def createIntegerConstantNode (i : Int) : ConstantNode :=
  ⟨CT_INTEGER, ConstantData.i i⟩

/-- `createFloatConstantNode`: a CT_FLOAT constant with float data. -/
def createFloatConstantNode (f : String) : ConstantNode :=
  ⟨CT_FLOAT, ConstantData.f f⟩

/-- `createStringConstantNode`: a CT_STRING constant with string data. -/
def createStringConstantNode (s : String) : ConstantNode :=
  ⟨CT_STRING, ConstantData.s s⟩

/-- `TypeNode` of `parser.h`: a variable type, as a `ConstantType` tag
(`CT_NIL` encodes the NOOB type). -/
structure TypeNode where
  type : ConstantType
  deriving DecidableEq, Repr

/-- `OpType` of `parser.h`: the kind of operation an `OpExprNode`
performs. -/
inductive OpType where
  | OP_ADD | OP_SUB | OP_MULT | OP_DIV | OP_MOD | OP_MAX | OP_MIN
  | OP_AND | OP_OR | OP_XOR | OP_NOT
  | OP_EQ | OP_NEQ
  | OP_CAT
  deriving DecidableEq, Repr

open OpType

/- The statement and expression node families of `parser.h`.  In C these
are tagged unions: `ExprNode`/`StmtNode` hold an enum tag plus a `void *`
to the per-kind structure.  The embedding fuses tag and payload into one
constructor per kind; the per-kind structures keep their `parser.h` names
and fields (lists of owned pointers become `List`s, nullable pointers
become `Option`s). -/
mutual

/-- `ExprNode` of `parser.h`: tag (`ExprType`) plus per-kind payload. -/
inductive ExprNode where
  | cast : CastExprNode → ExprNode
  | const : ConstantNode → ExprNode
  | ident : IdentifierNode → ExprNode
  | funccall : FuncCallExprNode → ExprNode
  | op : OpExprNode → ExprNode
  | impvar : ExprNode

/-- `CastExprNode` of `parser.h`: target expression and new type. -/
inductive CastExprNode where
  | mk : ExprNode → TypeNode → CastExprNode

/-- `FuncCallExprNode` of `parser.h`: scope, name, argument list. -/
inductive FuncCallExprNode where
  | mk : IdentifierNode → IdentifierNode → List ExprNode → FuncCallExprNode

/-- `OpExprNode` of `parser.h`: operation type and argument list. -/
inductive OpExprNode where
  | mk : OpType → List ExprNode → OpExprNode

end

/-- The `args` field of `OpExprNode`. -/
def OpExprNode.args : OpExprNode → List ExprNode
  | .mk _ a => a

/-- The `type` field of `OpExprNode`. -/
def OpExprNode.optype : OpExprNode → OpType
  | .mk t _ => t

mutual

/-- `StmtNode` of `parser.h`: tag (`StmtType`) plus per-kind payload.
`ST_BREAK` carries no structure. -/
inductive StmtNode where
  | castStmt : CastStmtNode → StmtNode
  | printStmt : PrintStmtNode → StmtNode
  | inputStmt : InputStmtNode → StmtNode
  | assignmentStmt : AssignmentStmtNode → StmtNode
  | declarationStmt : DeclarationStmtNode → StmtNode
  | ifThenElseStmt : IfThenElseStmtNode → StmtNode
  | switchStmt : SwitchStmtNode → StmtNode
  | breakStmt : StmtNode
  | returnStmt : ReturnStmtNode → StmtNode
  | loopStmt : LoopStmtNode → StmtNode
  | deallocationStmt : DeallocationStmtNode → StmtNode
  | funcDefStmt : FuncDefStmtNode → StmtNode
  | exprStmt : ExprNode → StmtNode

/-- `CastStmtNode` of `parser.h`: target identifier and new type. -/
inductive CastStmtNode where
  | mk : IdentifierNode → TypeNode → CastStmtNode

/-- `PrintStmtNode` of `parser.h`: argument expressions and the
suppress-newline flag. -/
inductive PrintStmtNode where
  | mk : List ExprNode → Bool → PrintStmtNode

/-- `InputStmtNode` of `parser.h`: target identifier. -/
inductive InputStmtNode where
  | mk : IdentifierNode → InputStmtNode

/-- `AssignmentStmtNode` of `parser.h`: target identifier and value
expression. -/
inductive AssignmentStmtNode where
  | mk : IdentifierNode → ExprNode → AssignmentStmtNode

/-- `DeclarationStmtNode` of `parser.h`: scope, target, optional init
expression, optional init type. -/
inductive DeclarationStmtNode where
  | mk : IdentifierNode → IdentifierNode → Option ExprNode → Option TypeNode →
      DeclarationStmtNode

/-- `IfThenElseStmtNode` of `parser.h`: then-block `yes`, optional
else-block `no`, guard expressions, elseif blocks. -/
inductive IfThenElseStmtNode where
  | mk : BlockNode → Option BlockNode → List ExprNode → List BlockNode →
      IfThenElseStmtNode

/-- `SwitchStmtNode` of `parser.h`: guard expressions, case blocks,
optional default block (`def` in C; renamed as `def` is reserved). -/
inductive SwitchStmtNode where
  | mk : List ExprNode → List BlockNode → Option BlockNode → SwitchStmtNode

/-- `ReturnStmtNode` of `parser.h`: value to return. -/
inductive ReturnStmtNode where
  | mk : ExprNode → ReturnStmtNode

/-- `LoopStmtNode` of `parser.h`: loop name, optional update variable,
optional guard, optional update expression, body. -/
inductive LoopStmtNode where
  | mk : IdentifierNode → Option IdentifierNode → Option ExprNode →
      Option ExprNode → BlockNode → LoopStmtNode

/-- `DeallocationStmtNode` of `parser.h`: target identifier. -/
inductive DeallocationStmtNode where
  | mk : IdentifierNode → DeallocationStmtNode

/-- `FuncDefStmtNode` of `parser.h`: scope, name, argument identifiers,
body. -/
inductive FuncDefStmtNode where
  | mk : IdentifierNode → IdentifierNode → List IdentifierNode → BlockNode →
      FuncDefStmtNode

/-- `BlockNode` of `parser.h`: the list of statements of the block. -/
inductive BlockNode where
  | mk : List StmtNode → BlockNode

end

/-- The `stmts` field of `BlockNode`. -/
def BlockNode.stmts : BlockNode → List StmtNode
  | .mk s => s

/-- The `guards` field of `IfThenElseStmtNode`. -/
def IfThenElseStmtNode.guards : IfThenElseStmtNode → List ExprNode
  | .mk _ _ g _ => g

/-- The `blocks` field of `IfThenElseStmtNode` (elseif blocks). -/
def IfThenElseStmtNode.blocks : IfThenElseStmtNode → List BlockNode
  | .mk _ _ _ b => b

/-- The `guards` field of `SwitchStmtNode`. -/
def SwitchStmtNode.guards : SwitchStmtNode → List ExprNode
  | .mk g _ _ => g

/-- The `blocks` field of `SwitchStmtNode` (case blocks). -/
def SwitchStmtNode.blocks : SwitchStmtNode → List BlockNode
  | .mk _ b _ => b

/-- The `expr` field of `DeclarationStmtNode` (optional initializer). -/
def DeclarationStmtNode.expr : DeclarationStmtNode → Option ExprNode
  | .mk _ _ e _ => e

/-- The `type` field of `DeclarationStmtNode` (optional initial type). -/
def DeclarationStmtNode.itype : DeclarationStmtNode → Option TypeNode
  | .mk _ _ _ t => t

/-- The `name` field of `LoopStmtNode`. -/
def LoopStmtNode.name : LoopStmtNode → IdentifierNode
  | .mk n _ _ _ _ => n

/-- `MainNode` of `parser.h`: the program root, wrapping the top-level
block. -/
structure MainNode where
  block : BlockNode

/-- The diagnostic payload of a fatal parse error (the C `error` function
prints the file name, line and expectation and the parse functions return
`NULL`; the embedding returns this payload instead). -/
inductive ParserError where
  | unexpectedToken : TokenType → Nat → ParserError
  | unknownLead : Nat → ParserError
  | expectedConstant : Nat → ParserError
  | expectedType : Nat → ParserError
  | loopNameMismatch : String → String → Nat → ParserError
  | outOfFuel : ParserError
  deriving DecidableEq, Repr

/-- Modelled from the spec: `peekToken` of the missing `parser.c`
(spec §4.1, `peek(kind)`) — true iff the current token's kind equals
`kind`; the cursor is not advanced (the function returns only the flag). -/
def peekToken (ts : List Token) (tt : TokenType) : Bool :=
  match ts with
  | [] => false
  | t :: _ => t.type = tt

/-- Modelled from the spec: `acceptToken` of the missing `parser.c`
(spec §4.1, `accept(kind)`) — if the current token matches, advance past
it and return true; otherwise return false and leave the cursor alone. -/
def acceptToken (ts : List Token) (tt : TokenType) : Bool × List Token :=
  match ts with
  | [] => (false, [])
  | t :: rest => if t.type = tt then (true, rest) else (false, t :: rest)

/-- Modelled from the spec: `nextToken` of the missing `parser.c`
(spec §4.1, `expect(kind)`) — like accept, but a mismatch is a fatal
error reported at the offending token's line. -/
def nextToken (ts : List Token) (tt : TokenType) :
    Except ParserError (List Token) :=
  match ts with
  | [] => .error (.unexpectedToken tt 0)
  | t :: rest =>
    if t.type = tt then .ok rest else .error (.unexpectedToken tt t.line)

/-- Modelled from the spec: `parseIdentifierNode` of the missing
`parser.c` — an identifier token becomes an `IdentifierNode` carrying its
image, file name and line. -/
def parseIdentifierNode (ts : List Token) : Except ParserError (IdentifierNode × List Token) :=
  match ts with
  | [] => .error (.unexpectedToken TT_IDENTIFIER 0)
  | t :: rest =>
    if t.type = TT_IDENTIFIER then .ok (⟨t.image, t.fname, t.line⟩, rest)
    else .error (.unexpectedToken TT_IDENTIFIER t.line)

/-- The `ConstantType` denoted by a type-keyword token, if any
(`TypeNode ::= TT_NOOB | TT_TROOF | TT_NUMBR | TT_NUMBAR | TT_YARN`;
NOOB is the nil type). -/
def typeForToken : TokenType → Option ConstantType
  | TT_NOOB => some CT_NIL
  | TT_TROOF => some CT_BOOLEAN
  | TT_NUMBR => some CT_INTEGER
  | TT_NUMBAR => some CT_FLOAT
  | TT_YARN => some CT_STRING
  | _ => none

/-- Modelled from the spec: `parseTypeNode` of the missing `parser.c` —
one of the five type keywords becomes a `TypeNode`. -/
def parseTypeNode (ts : List Token) : Except ParserError (TypeNode × List Token) :=
  match ts with
  | [] => .error (.expectedType 0)
  | t :: rest =>
    match typeForToken t.type with
    | some ct => .ok (⟨ct⟩, rest)
    | none => .error (.expectedType t.line)

/-- Modelled from the spec: `parseConstantNode` of the missing `parser.c`
— a boolean, integer, float or string literal token becomes a
`ConstantNode` built by the corresponding constant constructor. -/
def parseConstantNode (ts : List Token) : Except ParserError (ConstantNode × List Token) :=
  match ts with
  | [] => .error (.expectedConstant 0)
  | t :: rest =>
    if t.type = TT_WIN then .ok (createBooleanConstantNode 1, rest)
    else if t.type = TT_FAIL then .ok (createBooleanConstantNode 0, rest)
    else if t.type = TT_INTEGER then
      .ok (createIntegerConstantNode t.ivalue, rest)
    else if t.type = TT_FLOAT then .ok (createFloatConstantNode t.image, rest)
    else if t.type = TT_STRING then
      .ok (createStringConstantNode t.image, rest)
    else .error (.expectedConstant t.line)

/-- Modelled from the spec: `parseConstantExprNode` of the missing
`parser.c` — wraps a parsed constant as an `ET_CONSTANT` expression. -/
def parseConstantExprNode (ts : List Token) : Except ParserError (ExprNode × List Token) := do
  let (c, ts₁) ← parseConstantNode ts
  .ok (ExprNode.const c, ts₁)

/-- Modelled from the spec: `parseIdentifierExprNode` of the missing
`parser.c` — wraps a parsed identifier as an `ET_IDENTIFIER`
expression. -/
def parseIdentifierExprNode (ts : List Token) : Except ParserError (ExprNode × List Token) := do
  let (i, ts₁) ← parseIdentifierNode ts
  .ok (ExprNode.ident i, ts₁)

/-- Modelled from the spec: `parseDeallocationStmtNode` of the missing
`parser.c` (spec grammar `DeallocStmt ::= Ident RNOOB NEWLINE`) — an
identifier, the `R NOOB` token, and the terminating newline, all
consumed before the `DeallocationStmt` is returned. -/
def parseDeallocationStmtNode (ts : List Token) : Except ParserError (StmtNode × List Token) := do
  let (target, ts₁) ← parseIdentifierNode ts
  let ts₂ ← nextToken ts₁ TT_RNOOB
  let ts₃ ← nextToken ts₂ TT_NEWLINE
  .ok (StmtNode.deallocationStmt (DeallocationStmtNode.mk target), ts₃)

/-- Modelled from the spec: `parseBreakStmtNode` of the missing
`parser.c` (`BreakStmt ::= GTFO NEWLINE`). -/
def parseBreakStmtNode (ts : List Token) : Except ParserError (StmtNode × List Token) := do
  let ts₁ ← nextToken ts TT_GTFO
  let ts₂ ← nextToken ts₁ TT_NEWLINE
  .ok (StmtNode.breakStmt, ts₂)

/-- Modelled from the spec: `parseInputStmtNode` of the missing
`parser.c` (`InputStmt ::= GIMMEH Ident NEWLINE`). -/
def parseInputStmtNode (ts : List Token) : Except ParserError (StmtNode × List Token) := do
  let ts₁ ← nextToken ts TT_GIMMEH
  let (target, ts₂) ← parseIdentifierNode ts₁
  let ts₃ ← nextToken ts₂ TT_NEWLINE
  .ok (StmtNode.inputStmt (InputStmtNode.mk target), ts₃)

/-- Modelled from the spec: `parseCastStmtNode` of the missing `parser.c`
(`CastStmt ::= Ident ISNOWA Type NEWLINE`). -/
def parseCastStmtNode (ts : List Token) : Except ParserError (StmtNode × List Token) := do
  let (target, ts₁) ← parseIdentifierNode ts
  let ts₂ ← nextToken ts₁ TT_ISNOWA
  let (tn, ts₃) ← parseTypeNode ts₂
  let ts₄ ← nextToken ts₃ TT_NEWLINE
  .ok (StmtNode.castStmt (CastStmtNode.mk target tn), ts₄)

/-- Whether a token kind is a constant literal (boolean, integer, float
or string). -/
def isConstantToken : TokenType → Bool
  | TT_WIN | TT_FAIL | TT_INTEGER | TT_FLOAT | TT_STRING => true
  | _ => false

/-- The syntactic arity class of an operator keyword (spec §4.2:
operator arity is encoded by the leading token). -/
inductive OpArity where
  | unary
  | binary
  | nary
  deriving DecidableEq, Repr

/-- The arity class and `OpType` denoted by an operator keyword token,
if any (spec §4.2; `ALL OF` and `ANY OF` are the n-ary forms of logical
AND/OR, `SMOOSH` of concatenation). -/
def opForToken : TokenType → Option (OpArity × OpType)
  | TT_NOT => some (.unary, OP_NOT)
  | TT_SUMOF => some (.binary, OP_ADD)
  | TT_DIFFOF => some (.binary, OP_SUB)
  | TT_PRODUKTOF => some (.binary, OP_MULT)
  | TT_QUOSHUNTOF => some (.binary, OP_DIV)
  | TT_MODOF => some (.binary, OP_MOD)
  | TT_BIGGROF => some (.binary, OP_MAX)
  | TT_SMALLROF => some (.binary, OP_MIN)
  | TT_BOTHOF => some (.binary, OP_AND)
  | TT_EITHEROF => some (.binary, OP_OR)
  | TT_WONOF => some (.binary, OP_XOR)
  | TT_BOTHSAEM => some (.binary, OP_EQ)
  | TT_DIFFRINT => some (.binary, OP_NEQ)
  | TT_ALLOF => some (.nary, OP_AND)
  | TT_ANYOF => some (.nary, OP_OR)
  | TT_SMOOSH => some (.nary, OP_CAT)
  | _ => none

/-- Modelled from the spec: the loop-update clause of the missing
`parser.c` `parseLoopStmtNode` (spec §4.3: optional
`(UPPIN | NERFIN | Ident) YR Ident`; `UPPIN`/`NERFIN` become increment /
decrement expressions on the variable, a bare identifier names a unary
function whose validation the parser defers to evaluation). -/
def parseLoopUpdate (ts : List Token) :
    Except ParserError ((Option IdentifierNode × Option ExprNode) × List Token) :=
  match ts with
  | [] => .ok ((none, none), [])
  | t :: rest =>
    if t.type = TT_UPPIN then do
      let ts₁ ← nextToken rest TT_YR
      let (v, ts₂) ← parseIdentifierNode ts₁
      .ok ((some v, some (ExprNode.op (OpExprNode.mk OP_ADD
        [ExprNode.ident v, ExprNode.const (createIntegerConstantNode 1)]))), ts₂)
    else if t.type = TT_NERFIN then do
      let ts₁ ← nextToken rest TT_YR
      let (v, ts₂) ← parseIdentifierNode ts₁
      .ok ((some v, some (ExprNode.op (OpExprNode.mk OP_SUB
        [ExprNode.ident v, ExprNode.const (createIntegerConstantNode 1)]))), ts₂)
    else if t.type = TT_IDENTIFIER then do
      let ts₁ ← nextToken rest TT_YR
      let (v, ts₂) ← parseIdentifierNode ts₁
      .ok ((some v, some (ExprNode.funccall (FuncCallExprNode.mk
        ⟨t.image, t.fname, t.line⟩ ⟨t.image, t.fname, t.line⟩
        [ExprNode.ident v]))), ts₂)
    else .ok ((none, none), ts)

/-- Modelled from the spec: the closing sequence of the missing
`parser.c` `parseLoopStmtNode` (spec §4.3 / §7): `IM OUTTA YR`, an
identifier whose image must equal the loop-opening name, and a newline;
on mismatch the fatal diagnostic carries the closing identifier's
line. -/
def parseLoopClose (name : IdentifierNode) (ts : List Token) :
    Except ParserError (List Token) := do
  let ts₁ ← nextToken ts TT_IMOUTTAYR
  let (closer, ts₂) ← parseIdentifierNode ts₁
  if closer.image = name.image then nextToken ts₂ TT_NEWLINE
  else .error (.loopNameMismatch name.image closer.image closer.line)

/-- Modelled from the spec: the argument-list tail of the missing
`parser.c` `parseFuncDefStmtNode` (spec §4.3: zero or more `AN YR`
followed by an identifier). -/
def parseFuncDefArgs (fuel : Nat) (ts : List Token)
    (acc : List IdentifierNode) :
    Except ParserError (List IdentifierNode × List Token) :=
  match acceptToken ts TT_ANYR with
  | (true, ts₁) =>
    match fuel with
    | 0 => .error .outOfFuel
    | f + 1 => do
      let (a, ts₂) ← parseIdentifierNode ts₁
      parseFuncDefArgs f ts₂ (acc ++ [a])
  | (false, _) => .ok (acc, ts)

mutual

/-- Modelled from the spec: `parseExprNode` of the missing `parser.c`
(spec §4.2) — dispatch on the leading token: literal, `MAEK` cast, `IT`,
identifier or function call (second token `IZ`), or operator form. -/
def parseExprNode (fuel : Nat) (ts : List Token) :
    Except ParserError (ExprNode × List Token) :=
  match fuel with
  | 0 => .error .outOfFuel
  | f + 1 =>
    match ts with
    | [] => .error (.unknownLead 0)
    | t :: rest =>
      if isConstantToken t.type then parseConstantExprNode ts
      else if t.type = TT_MAEK then do
        let (e, ts₁) ← parseExprNode f rest
        let ts₂ ← nextToken ts₁ TT_A
        let (tn, ts₃) ← parseTypeNode ts₂
        .ok (ExprNode.cast (CastExprNode.mk e tn), ts₃)
      else if t.type = TT_IT then .ok (ExprNode.impvar, rest)
      else if t.type = TT_IDENTIFIER then
        match rest with
        | t2 :: _ =>
          if t2.type = TT_IZ then parseFuncCallExprNode f ts
          else parseIdentifierExprNode ts
        | [] => parseIdentifierExprNode ts
      else
        match opForToken t.type with
        | some _ => parseOpExprNode f ts
        | none => .error (.unknownLead t.line)

/-- Modelled from the spec: `parseOpExprNode` of the missing `parser.c`
(spec §4.2) — a unary operator takes one operand; a binary operator two,
with an optional `AN` between them; an n-ary operator at least one,
separated by optional `AN` and terminated by `MKAY`. -/
def parseOpExprNode (fuel : Nat) (ts : List Token) :
    Except ParserError (ExprNode × List Token) :=
  match fuel with
  | 0 => .error .outOfFuel
  | f + 1 =>
    match ts with
    | [] => .error (.unknownLead 0)
    | t :: rest =>
      match opForToken t.type with
      | some (.unary, o) => do
        let (e, ts₁) ← parseExprNode f rest
        .ok (ExprNode.op (OpExprNode.mk o [e]), ts₁)
      | some (.binary, o) => do
        let (e₁, ts₁) ← parseExprNode f rest
        let (_, ts₂) := acceptToken ts₁ TT_AN
        let (e₂, ts₃) ← parseExprNode f ts₂
        .ok (ExprNode.op (OpExprNode.mk o [e₁, e₂]), ts₃)
      | some (.nary, o) => do
        let (e₁, ts₁) ← parseExprNode f rest
        let (args, ts₂) ← parseNaryOpArgs f ts₁ [e₁]
        .ok (ExprNode.op (OpExprNode.mk o args), ts₂)
      | none => .error (.unknownLead t.line)

/-- Modelled from the spec: the n-ary argument loop of the missing
`parser.c` `parseOpExprNode` (spec §4.2 / grammar
`NaryOp Expr (AN? Expr)* MKAY`) — further operands, each preceded by an
optional `AN`, until the terminating `MKAY` is consumed. -/
def parseNaryOpArgs (fuel : Nat) (ts : List Token) (acc : List ExprNode) :
    Except ParserError (List ExprNode × List Token) :=
  match acceptToken ts TT_MKAY with
  | (true, ts₁) => .ok (acc, ts₁)
  | (false, _) =>
    match fuel with
    | 0 => .error .outOfFuel
    | f + 1 => do
      let (_, ts₂) := acceptToken ts TT_AN
      let (e, ts₃) ← parseExprNode f ts₂
      parseNaryOpArgs f ts₃ (acc ++ [e])

/-- Modelled from the spec: `parseFuncCallExprNode` of the missing
`parser.c` (grammar `FuncCall ::= Ident IZ Ident (YR Expr (ANYR Expr)*)?
MKAY`). -/
def parseFuncCallExprNode (fuel : Nat) (ts : List Token) :
    Except ParserError (ExprNode × List Token) :=
  match fuel with
  | 0 => .error .outOfFuel
  | f + 1 => do
    let (scope, ts₁) ← parseIdentifierNode ts
    let ts₂ ← nextToken ts₁ TT_IZ
    let (name, ts₃) ← parseIdentifierNode ts₂
    let (args, ts₄) ←
      match acceptToken ts₃ TT_YR with
      | (true, tsa) => do
        let (e₀, tsb) ← parseExprNode f tsa
        parseFuncCallArgs f tsb [e₀]
      | (false, _) => .ok ([], ts₃)
    let ts₅ ← nextToken ts₄ TT_MKAY
    .ok (ExprNode.funccall (FuncCallExprNode.mk scope name args), ts₅)

/-- Modelled from the spec: the argument tail of the missing `parser.c`
`parseFuncCallExprNode` — zero or more `AN YR` followed by an
expression. -/
def parseFuncCallArgs (fuel : Nat) (ts : List Token) (acc : List ExprNode) :
    Except ParserError (List ExprNode × List Token) :=
  match acceptToken ts TT_ANYR with
  | (true, ts₁) =>
    match fuel with
    | 0 => .error .outOfFuel
    | f + 1 => do
      let (e, ts₂) ← parseExprNode f ts₁
      parseFuncCallArgs f ts₂ (acc ++ [e])
  | (false, _) => .ok (acc, ts)

/-- Modelled from the spec: `parsePrintStmtNode` of the missing
`parser.c` (spec §4.3: `VISIBLE`, one or more expressions, optional
trailing `!` setting the suppress-newline flag, newline). -/
def parsePrintStmtNode (fuel : Nat) (ts : List Token) :
    Except ParserError (StmtNode × List Token) :=
  match fuel with
  | 0 => .error .outOfFuel
  | f + 1 => do
    let ts₁ ← nextToken ts TT_VISIBLE
    let (e₀, ts₂) ← parseExprNode f ts₁
    let (args, ts₃) ← parsePrintArgs f ts₂ [e₀]
    let (bang, ts₄) := acceptToken ts₃ TT_BANG
    let ts₅ ← nextToken ts₄ TT_NEWLINE
    .ok (StmtNode.printStmt (PrintStmtNode.mk args bang), ts₅)

/-- Modelled from the spec: the argument loop of the missing `parser.c`
`parsePrintStmtNode` — further expressions until the cursor reaches the
optional `!` or the newline. -/
def parsePrintArgs (fuel : Nat) (ts : List Token) (acc : List ExprNode) :
    Except ParserError (List ExprNode × List Token) :=
  if peekToken ts TT_BANG || peekToken ts TT_NEWLINE then .ok (acc, ts)
  else
    match fuel with
    | 0 => .error .outOfFuel
    | f + 1 => do
      let (e, ts₁) ← parseExprNode f ts
      parsePrintArgs f ts₁ (acc ++ [e])

/-- Modelled from the spec: `parseAssignmentStmtNode` of the missing
`parser.c` (grammar `AssignStmt ::= Ident R Expr NEWLINE`). -/
def parseAssignmentStmtNode (fuel : Nat) (ts : List Token) :
    Except ParserError (StmtNode × List Token) :=
  match fuel with
  | 0 => .error .outOfFuel
  | f + 1 => do
    let (target, ts₁) ← parseIdentifierNode ts
    let ts₂ ← nextToken ts₁ TT_R
    let (e, ts₃) ← parseExprNode f ts₂
    let ts₄ ← nextToken ts₃ TT_NEWLINE
    .ok (StmtNode.assignmentStmt (AssignmentStmtNode.mk target e), ts₄)

/-- Modelled from the spec: `parseDeclarationStmtNode` of the missing
`parser.c` (spec §4.3: scope identifier, `HAS A`, target identifier,
then optionally `ITZ` and an expression or `ITZ A` and a type, then the
newline). -/
def parseDeclarationStmtNode (fuel : Nat) (ts : List Token) :
    Except ParserError (StmtNode × List Token) :=
  match fuel with
  | 0 => .error .outOfFuel
  | f + 1 => do
    let (scope, ts₁) ← parseIdentifierNode ts
    let ts₂ ← nextToken ts₁ TT_HASA
    let (target, ts₃) ← parseIdentifierNode ts₂
    match acceptToken ts₃ TT_ITZ with
    | (true, ts₄) => do
      let (e, ts₅) ← parseExprNode f ts₄
      let ts₆ ← nextToken ts₅ TT_NEWLINE
      .ok (StmtNode.declarationStmt
        (DeclarationStmtNode.mk scope target (some e) none), ts₆)
    | (false, _) =>
      match acceptToken ts₃ TT_ITZA with
      | (true, ts₄) => do
        let (tn, ts₅) ← parseTypeNode ts₄
        let ts₆ ← nextToken ts₅ TT_NEWLINE
        .ok (StmtNode.declarationStmt
          (DeclarationStmtNode.mk scope target none (some tn)), ts₆)
      | (false, _) => do
        let ts₄ ← nextToken ts₃ TT_NEWLINE
        .ok (StmtNode.declarationStmt
          (DeclarationStmtNode.mk scope target none none), ts₄)

/-- Modelled from the spec: `parseIfThenElseStmtNode` of the missing
`parser.c` (spec §4.3: `O RLY?`, newline, `YA RLY`, newline, then-block,
zero or more `MEBBE` clauses, optional `NO WAI` else-block, `OIC`,
newline). -/
def parseIfThenElseStmtNode (fuel : Nat) (ts : List Token) :
    Except ParserError (StmtNode × List Token) :=
  match fuel with
  | 0 => .error .outOfFuel
  | f + 1 => do
    let ts₁ ← nextToken ts TT_ORLY
    let ts₂ ← nextToken ts₁ TT_NEWLINE
    let ts₃ ← nextToken ts₂ TT_YARLY
    let ts₄ ← nextToken ts₃ TT_NEWLINE
    let (yes, ts₅) ← parseBlockNode f ts₄ [TT_MEBBE, TT_NOWAI, TT_OIC]
    let ((gs, bs), ts₆) ← parseMebbeClauses f ts₅ [] []
    let (hasElse, ts₇) := acceptToken ts₆ TT_NOWAI
    if hasElse then do
      let ts₈ ← nextToken ts₇ TT_NEWLINE
      let (no, ts₉) ← parseBlockNode f ts₈ [TT_OIC]
      let ts₁₀ ← nextToken ts₉ TT_OIC
      let ts₁₁ ← nextToken ts₁₀ TT_NEWLINE
      .ok (StmtNode.ifThenElseStmt
        (IfThenElseStmtNode.mk yes (some no) gs bs), ts₁₁)
    else do
      let ts₈ ← nextToken ts₇ TT_OIC
      let ts₉ ← nextToken ts₈ TT_NEWLINE
      .ok (StmtNode.ifThenElseStmt
        (IfThenElseStmtNode.mk yes none gs bs), ts₉)

/-- Modelled from the spec: the `MEBBE` loop of the missing `parser.c`
`parseIfThenElseStmtNode` — each clause contributes one guard expression
and one block, appended to the two lists in lockstep. -/
def parseMebbeClauses (fuel : Nat) (ts : List Token) (gs : List ExprNode)
    (bs : List BlockNode) :
    Except ParserError ((List ExprNode × List BlockNode) × List Token) :=
  if peekToken ts TT_MEBBE then
    match fuel with
    | 0 => .error .outOfFuel
    | f + 1 => do
      let (_, ts₁) := acceptToken ts TT_MEBBE
      let (g, ts₂) ← parseExprNode f ts₁
      let ts₃ ← nextToken ts₂ TT_NEWLINE
      let (b, ts₄) ← parseBlockNode f ts₃ [TT_MEBBE, TT_NOWAI, TT_OIC]
      parseMebbeClauses f ts₄ (gs ++ [g]) (bs ++ [b])
  else .ok ((gs, bs), ts)

/-- Modelled from the spec: `parseSwitchStmtNode` of the missing
`parser.c` (spec §4.3: `WTF?`, newline, one or more `OMG` cases — the
first is mandatory — optional `OMGWTF` default, `OIC`, newline). -/
def parseSwitchStmtNode (fuel : Nat) (ts : List Token) :
    Except ParserError (StmtNode × List Token) :=
  match fuel with
  | 0 => .error .outOfFuel
  | f + 1 => do
    let ts₁ ← nextToken ts TT_WTF
    let ts₂ ← nextToken ts₁ TT_NEWLINE
    let ts₃ ← nextToken ts₂ TT_OMG
    let (g₀, ts₄) ← parseExprNode f ts₃
    let ts₅ ← nextToken ts₄ TT_NEWLINE
    let (b₀, ts₆) ← parseBlockNode f ts₅ [TT_OMG, TT_OMGWTF, TT_OIC]
    let ((gs, bs), ts₇) ← parseOmgCases f ts₆ [g₀] [b₀]
    let (hasDefault, ts₈) := acceptToken ts₇ TT_OMGWTF
    if hasDefault then do
      let ts₉ ← nextToken ts₈ TT_NEWLINE
      let (d, ts₁₀) ← parseBlockNode f ts₉ [TT_OIC]
      let ts₁₁ ← nextToken ts₁₀ TT_OIC
      let ts₁₂ ← nextToken ts₁₁ TT_NEWLINE
      .ok (StmtNode.switchStmt (SwitchStmtNode.mk gs bs (some d)), ts₁₂)
    else do
      let ts₉ ← nextToken ts₈ TT_OIC
      let ts₁₀ ← nextToken ts₉ TT_NEWLINE
      .ok (StmtNode.switchStmt (SwitchStmtNode.mk gs bs none), ts₁₀)

/-- Modelled from the spec: the `OMG` case loop of the missing
`parser.c` `parseSwitchStmtNode` — each case contributes one guard and
one block, appended in lockstep. -/
def parseOmgCases (fuel : Nat) (ts : List Token) (gs : List ExprNode)
    (bs : List BlockNode) :
    Except ParserError ((List ExprNode × List BlockNode) × List Token) :=
  if peekToken ts TT_OMG then
    match fuel with
    | 0 => .error .outOfFuel
    | f + 1 => do
      let (_, ts₁) := acceptToken ts TT_OMG
      let (g, ts₂) ← parseExprNode f ts₁
      let ts₃ ← nextToken ts₂ TT_NEWLINE
      let (b, ts₄) ← parseBlockNode f ts₃ [TT_OMG, TT_OMGWTF, TT_OIC]
      parseOmgCases f ts₄ (gs ++ [g]) (bs ++ [b])
  else .ok ((gs, bs), ts)

/-- Modelled from the spec: `parseReturnStmtNode` of the missing
`parser.c` (grammar `ReturnStmt ::= FOUNDYR Expr NEWLINE`). -/
def parseReturnStmtNode (fuel : Nat) (ts : List Token) :
    Except ParserError (StmtNode × List Token) :=
  match fuel with
  | 0 => .error .outOfFuel
  | f + 1 => do
    let ts₁ ← nextToken ts TT_FOUNDYR
    let (e, ts₂) ← parseExprNode f ts₁
    let ts₃ ← nextToken ts₂ TT_NEWLINE
    .ok (StmtNode.returnStmt (ReturnStmtNode.mk e), ts₃)

/-- Modelled from the spec: the optional loop guard of the missing
`parser.c` `parseLoopStmtNode` (spec §4.3: `TIL` or `WILE` followed by
an expression). -/
def parseLoopGuard (fuel : Nat) (ts : List Token) :
    Except ParserError (Option ExprNode × List Token) :=
  match ts with
  | [] => .ok (none, [])
  | t :: rest =>
    if t.type = TT_TIL ∨ t.type = TT_WILE then
      match fuel with
      | 0 => .error .outOfFuel
      | f + 1 => do
        let (e, ts₁) ← parseExprNode f rest
        .ok (some e, ts₁)
    else .ok (none, ts)

/-- Modelled from the spec: `parseLoopStmtNode` of the missing
`parser.c` (spec §4.3: `IM IN YR`, loop name, optional update clause,
optional guard, newline, body, then the closing sequence checked by
`parseLoopClose`). -/
def parseLoopStmtNode (fuel : Nat) (ts : List Token) :
    Except ParserError (StmtNode × List Token) :=
  match fuel with
  | 0 => .error .outOfFuel
  | f + 1 => do
    let ts₁ ← nextToken ts TT_IMINYR
    let (name, ts₂) ← parseIdentifierNode ts₁
    let ((var, upd), ts₃) ← parseLoopUpdate ts₂
    let (guard, ts₄) ← parseLoopGuard f ts₃
    let ts₅ ← nextToken ts₄ TT_NEWLINE
    let (body, ts₆) ← parseBlockNode f ts₅ [TT_IMOUTTAYR]
    let ts₇ ← parseLoopClose name ts₆
    .ok (StmtNode.loopStmt (LoopStmtNode.mk name var guard upd body), ts₇)

/-- Modelled from the spec: `parseFuncDefStmtNode` of the missing
`parser.c` (spec §4.3: `HOW IZ`, scope, name, optional argument list
(`YR` then `AN YR`-chained identifiers), newline, body, `IF U SAY SO`,
newline). -/
def parseFuncDefStmtNode (fuel : Nat) (ts : List Token) :
    Except ParserError (StmtNode × List Token) :=
  match fuel with
  | 0 => .error .outOfFuel
  | f + 1 => do
    let ts₁ ← nextToken ts TT_HOWIZ
    let (scope, ts₂) ← parseIdentifierNode ts₁
    let (name, ts₃) ← parseIdentifierNode ts₂
    let (args, ts₄) ←
      match acceptToken ts₃ TT_YR with
      | (true, tsa) => do
        let (a₀, tsb) ← parseIdentifierNode tsa
        parseFuncDefArgs f tsb [a₀]
      | (false, _) =>
        (.ok ([], ts₃) : Except ParserError (List IdentifierNode × List Token))
    let ts₅ ← nextToken ts₄ TT_NEWLINE
    let (body, ts₆) ← parseBlockNode f ts₅ [TT_IFUSAYSO]
    let ts₇ ← nextToken ts₆ TT_IFUSAYSO
    let ts₈ ← nextToken ts₇ TT_NEWLINE
    .ok (StmtNode.funcDefStmt (FuncDefStmtNode.mk scope name args body), ts₈)

/-- Modelled from the spec: `parseStmtNode` of the missing `parser.c`
(spec §4.3) — dispatch on the leading token (and, for a leading
identifier, on the token after it) to the statement sub-parsers; any
other expression-leading token begins an expression statement. -/
def parseStmtNode (fuel : Nat) (ts : List Token) :
    Except ParserError (StmtNode × List Token) :=
  match fuel with
  | 0 => .error .outOfFuel
  | f + 1 =>
    match ts with
    | [] => .error (.unknownLead 0)
    | t :: rest =>
      if t.type = TT_VISIBLE then parsePrintStmtNode f ts
      else if t.type = TT_GIMMEH then parseInputStmtNode ts
      else if t.type = TT_ORLY then parseIfThenElseStmtNode f ts
      else if t.type = TT_WTF then parseSwitchStmtNode f ts
      else if t.type = TT_GTFO then parseBreakStmtNode ts
      else if t.type = TT_FOUNDYR then parseReturnStmtNode f ts
      else if t.type = TT_IMINYR then parseLoopStmtNode f ts
      else if t.type = TT_HOWIZ then parseFuncDefStmtNode f ts
      else if t.type = TT_IDENTIFIER then
        match rest with
        | t₂ :: _ =>
          if t₂.type = TT_R then parseAssignmentStmtNode f ts
          else if t₂.type = TT_ISNOWA then parseCastStmtNode ts
          else if t₂.type = TT_HASA then parseDeclarationStmtNode f ts
          else if t₂.type = TT_RNOOB then parseDeallocationStmtNode ts
          else do
            let (e, ts₁) ← parseExprNode f ts
            let ts₂ ← nextToken ts₁ TT_NEWLINE
            .ok (StmtNode.exprStmt e, ts₂)
        | [] => do
          let (e, ts₁) ← parseExprNode f ts
          let ts₂ ← nextToken ts₁ TT_NEWLINE
          .ok (StmtNode.exprStmt e, ts₂)
      else do
        let (e, ts₁) ← parseExprNode f ts
        let ts₂ ← nextToken ts₁ TT_NEWLINE
        .ok (StmtNode.exprStmt e, ts₂)

/-- Modelled from the spec: `parseBlockNode` of the missing `parser.c`
(spec §4.4: parse statements until the current token is in the closer
set, leaving that token unconsumed; empty blocks are permitted). -/
def parseBlockNode (fuel : Nat) (ts : List Token) (closers : List TokenType) :
    Except ParserError (BlockNode × List Token) :=
  match fuel with
  | 0 => .error .outOfFuel
  | f + 1 =>
    match ts with
    | [] => .error (.unknownLead 0)
    | t :: _ =>
      if t.type ∈ closers then .ok (BlockNode.mk [], ts)
      else do
        let (s, ts₁) ← parseStmtNode f ts
        let (blk, ts₂) ← parseBlockNode f ts₁ closers
        .ok (BlockNode.mk (s :: blk.stmts), ts₂)

end

/-- Modelled from the spec: the version check of the missing `parser.c`
`parseMainNode` — the token after `HAI` must be a numeric literal (§7:
any syntactically numeric version is accepted). -/
def nextVersionToken (ts : List Token) : Except ParserError (List Token) :=
  match ts with
  | [] => .error (.expectedConstant 0)
  | t :: rest =>
    if t.type = TT_INTEGER ∨ t.type = TT_FLOAT then .ok rest
    else .error (.expectedConstant t.line)

/-- Modelled from the spec: `parseMainNode` of the missing `parser.c`
(spec §4.4 / grammar `Program ::= HAI VERSION NEWLINE Block KTHXBYE
EOF`), the sole public entry point; returns the `MainNode` root wrapping
the top-level block. -/
def parseMainNode (fuel : Nat) (ts : List Token) :
    Except ParserError MainNode := do
  let ts₁ ← nextToken ts TT_HAI
  let ts₂ ← nextVersionToken ts₁
  let ts₃ ← nextToken ts₂ TT_NEWLINE
  let (blk, ts₄) ← parseBlockNode fuel ts₃ [TT_KTHXBYE]
  let ts₅ ← nextToken ts₄ TT_KTHXBYE
  let _ ← nextToken ts₅ TT_EOF
  .ok ⟨blk⟩

/-! ## Decomposition lemmas -/

/-- Success of an `Except` bind splits into success of both stages. -/
theorem except_bind_ok {ε α β : Type} {x : Except ε α} {f : α → Except ε β}
    {b : β} : (x >>= f) = Except.ok b ↔
      ∃ a, x = Except.ok a ∧ f a = Except.ok b := by
  cases x <;> simp [Bind.bind, Except.bind]

/-- Success of `nextToken` means the stream starts with the expected
kind, and exactly that token is consumed. -/
theorem nextToken_ok {ts ts' : List Token} {tt : TokenType} :
    nextToken ts tt = .ok ts' ↔ ∃ t, ts = t :: ts' ∧ t.type = tt := by
  cases ts with
  | nil => simp [nextToken]
  | cons t rest =>
    by_cases h : t.type = tt <;>
      (simp [nextToken, h, List.cons.injEq]; try aesop)

/-- Success of `nextVersionToken` means the stream starts with a numeric
literal token. -/
theorem nextVersionToken_ok {ts ts' : List Token} :
    nextVersionToken ts = .ok ts' ↔
      ∃ t, ts = t :: ts' ∧ (t.type = TT_INTEGER ∨ t.type = TT_FLOAT) := by
  cases ts with
  | nil => simp [nextVersionToken]
  | cons t rest =>
    by_cases h : t.type = TT_INTEGER ∨ t.type = TT_FLOAT <;>
      simp [nextVersionToken, h, List.cons.injEq] <;> aesop

/-- Success of `parseIdentifierNode` means the stream starts with an
identifier token, whose image, file and line populate the node. -/
theorem parseIdentifierNode_ok {ts ts' : List Token} {i : IdentifierNode} :
    parseIdentifierNode ts = .ok (i, ts') ↔
      ∃ t, ts = t :: ts' ∧ t.type = TT_IDENTIFIER ∧
        i = ⟨t.image, t.fname, t.line⟩ := by
  cases ts with
  | nil => simp [parseIdentifierNode]
  | cons t rest =>
    by_cases h : t.type = TT_IDENTIFIER <;>
      (simp [parseIdentifierNode, h, List.cons.injEq]; try aesop)

/-- A concrete token of a given kind, used to instantiate theorems. -/
def tokOf (tt : TokenType) : Token :=
  ⟨tt, "", 0, "", 1⟩

/-! ## Claim theorems -/

/-- Claim C8: for every token kind `k` and cursor position, `peekToken`
returns true iff the current token's kind equals `k` (and, returning only
the flag, never advances the cursor), while `acceptToken` advances by
exactly one token and returns true when the current kind equals `k`
(positive direction: a matching head forces the `(true, tail)` result),
and returns false leaving the cursor unchanged otherwise. -/
theorem peekToken_acceptToken_spec (ts : List Token) (k : TokenType) :
    (peekToken ts k = true ↔ ∃ t rest, ts = t :: rest ∧ t.type = k) ∧
    (∀ t rest, ts = t :: rest → t.type = k →
      acceptToken ts k = (true, rest)) ∧
    ((acceptToken ts k).1 = true →
      ∃ t, ts = t :: (acceptToken ts k).2 ∧ t.type = k) ∧
    ((acceptToken ts k).1 = false → (acceptToken ts k).2 = ts) := by
  refine ⟨?_, ?_, ?_, ?_⟩ <;> cases ts with
  | nil => simp [peekToken, acceptToken]
  | cons t rest =>
    by_cases h : t.type = k <;>
      simp_all [peekToken, acceptToken, List.cons.injEq]

/-- Witness for C8 at a concrete cursor: accepting `TT_HAI` at a stream
headed by a `TT_HAI` token returns true and consumes exactly that
token. -/
theorem peekToken_acceptToken_spec_witness :
    acceptToken [tokOf TT_HAI] TT_HAI = (true, []) :=
  (peekToken_acceptToken_spec [tokOf TT_HAI] TT_HAI).2.1
    (tokOf TT_HAI) [] rfl rfl

/-- Claim C3: a deallocation statement consists of an identifier, the
`R NOOB` token and a terminating newline, all three consumed before the
`DeallocationStmt` node is returned (the remaining stream is exactly what
follows the newline). -/
theorem parseDeallocationStmtNode_spec (ts rest : List Token)
    (s : StmtNode) :
    parseDeallocationStmtNode ts = .ok (s, rest) ↔
      ∃ i r nl rest₀, ts = i :: r :: nl :: rest₀ ∧
        i.type = TT_IDENTIFIER ∧ r.type = TT_RNOOB ∧ nl.type = TT_NEWLINE ∧
        s = StmtNode.deallocationStmt
          (DeallocationStmtNode.mk ⟨i.image, i.fname, i.line⟩) ∧
        rest = rest₀ := by
  constructor
  · intro hp
    simp only [parseDeallocationStmtNode, except_bind_ok] at hp
    obtain ⟨⟨i, ts₁⟩, hi, hp⟩ := hp
    obtain ⟨ts₂, hr, hp⟩ := hp
    obtain ⟨ts₃, hnl, hp⟩ := hp
    rw [parseIdentifierNode_ok] at hi
    obtain ⟨ti, rfl, hti, rfl⟩ := hi
    rw [nextToken_ok] at hr
    obtain ⟨tr, rfl, htr⟩ := hr
    rw [nextToken_ok] at hnl
    obtain ⟨tnl, rfl, htnl⟩ := hnl
    simp only [Except.ok.injEq, Prod.mk.injEq] at hp
    exact ⟨ti, tr, tnl, ts₃, rfl, hti, htr, htnl, hp.1.symm, hp.2.symm⟩
  · rintro ⟨i, r, nl, rest₀, rfl, hi, hr, hnl, rfl, rfl⟩
    simp [parseDeallocationStmtNode, parseIdentifierNode, nextToken,
      hi, hr, hnl, Bind.bind, Except.bind]

/-- Witness for C3: a concrete identifier–`R NOOB`–newline sequence
parses to the deallocation statement with nothing left over. -/
theorem parseDeallocationStmtNode_spec_witness :
    parseDeallocationStmtNode
        [tokOf TT_IDENTIFIER, tokOf TT_RNOOB, tokOf TT_NEWLINE] =
      .ok (StmtNode.deallocationStmt
        (DeallocationStmtNode.mk ⟨"", "", 1⟩), []) :=
  (parseDeallocationStmtNode_spec _ _ _).mpr
    ⟨tokOf TT_IDENTIFIER, tokOf TT_RNOOB, tokOf TT_NEWLINE, [],
      rfl, rfl, rfl, rfl, rfl, rfl⟩

/-- Claim C10: the constant constructors produce only the Boolean,
Integer, Float and String kinds; every `ConstantNode` returned by
`parseConstantNode` (the parser's only source of constants) has a kind
other than `CT_NIL`; and a `TypeNode` with payload `CT_NIL` can only
come from a `TT_NOOB` token. -/
theorem constantNode_never_nil :
    (∀ i, (createBooleanConstantNode i).type = CT_BOOLEAN) ∧
    (∀ i, (createIntegerConstantNode i).type = CT_INTEGER) ∧
    (∀ f, (createFloatConstantNode f).type = CT_FLOAT) ∧
    (∀ s, (createStringConstantNode s).type = CT_STRING) ∧
    (∀ ts c rest, parseConstantNode ts = .ok (c, rest) →
      c.type ≠ CT_NIL) ∧
    (∀ ts tn rest, parseTypeNode ts = .ok (tn, rest) → tn.type = CT_NIL →
      ∃ t rest₀, ts = t :: rest₀ ∧ t.type = TT_NOOB) := by
  refine ⟨fun _ => rfl, fun _ => rfl, fun _ => rfl, fun _ => rfl, ?_, ?_⟩
  · intro ts c rest hp
    cases ts with
    | nil => simp [parseConstantNode] at hp
    | cons t r =>
      simp only [parseConstantNode] at hp
      split at hp
      · simp only [Except.ok.injEq, Prod.mk.injEq] at hp
        rw [← hp.1]; simp [createBooleanConstantNode]
      · split at hp
        · simp only [Except.ok.injEq, Prod.mk.injEq] at hp
          rw [← hp.1]; simp [createBooleanConstantNode]
        · split at hp
          · simp only [Except.ok.injEq, Prod.mk.injEq] at hp
            rw [← hp.1]; simp [createIntegerConstantNode]
          · split at hp
            · simp only [Except.ok.injEq, Prod.mk.injEq] at hp
              rw [← hp.1]; simp [createFloatConstantNode]
            · split at hp
              · simp only [Except.ok.injEq, Prod.mk.injEq] at hp
                rw [← hp.1]; simp [createStringConstantNode]
              · simp at hp
  · intro ts tn rest hp htn
    cases ts with
    | nil => simp [parseTypeNode] at hp
    | cons t r =>
      obtain ⟨tt, im, iv, fn, ln⟩ := t
      refine ⟨⟨tt, im, iv, fn, ln⟩, r, rfl, ?_⟩
      simp only [parseTypeNode] at hp
      cases tt <;> simp_all [typeForToken] <;>
        (obtain ⟨rfl, rfl⟩ := hp; simp at htn)

/-- Witness for C10: the constant parsed from a concrete `WIN` token has
the Boolean kind, not `CT_NIL`. -/
theorem constantNode_never_nil_witness :
    (createBooleanConstantNode 1).type ≠ CT_NIL :=
  constantNode_never_nil.2.2.2.2.1 [tokOf TT_WIN]
    (createBooleanConstantNode 1) [] rfl

/-- Claim C9: the block parser accepts an empty block, stopping
immediately on a closer without consuming it; and whenever it succeeds,
the remaining stream starts with a token of the closer set (the closer is
never consumed). -/
theorem parseBlockNode_spec :
    (∀ fuel t rest closers, 0 < fuel → t.type ∈ closers →
      parseBlockNode fuel (t :: rest) closers =
        .ok (BlockNode.mk [], t :: rest)) ∧
    (∀ fuel ts closers blk ts',
      parseBlockNode fuel ts closers = .ok (blk, ts') →
      ∃ t rest, ts' = t :: rest ∧ t.type ∈ closers) := by
  constructor
  · intro fuel t rest closers hf hm
    cases fuel with
    | zero => exact absurd hf (by simp)
    | succ f => simp [parseBlockNode, hm]
  · intro fuel
    induction fuel with
    | zero => intro ts closers blk ts' hp; simp [parseBlockNode] at hp
    | succ f ih =>
      intro ts closers blk ts' hp
      cases ts with
      | nil => simp [parseBlockNode] at hp
      | cons t rest =>
        simp only [parseBlockNode] at hp
        by_cases hm : t.type ∈ closers
        · rw [if_pos hm] at hp
          simp only [Except.ok.injEq, Prod.mk.injEq] at hp
          exact ⟨t, rest, hp.2.symm, hm⟩
        · rw [if_neg hm] at hp
          simp only [except_bind_ok] at hp
          obtain ⟨⟨s, ts₁⟩, -, hp⟩ := hp
          simp only [except_bind_ok] at hp
          obtain ⟨⟨blk₁, ts₂⟩, hb, hp⟩ := hp
          simp only [Except.ok.injEq, Prod.mk.injEq] at hp
          obtain ⟨-, rfl⟩ := hp
          exact ih ts₁ closers blk₁ _ hb

/-- Witness for C9: the empty-block clause applied at a concrete `OIC`
closer. -/
theorem parseBlockNode_spec_witness :
    parseBlockNode 1 [tokOf TT_OIC] [TT_OIC] =
      .ok (BlockNode.mk [], [tokOf TT_OIC]) :=
  parseBlockNode_spec.1 1 (tokOf TT_OIC) [] [TT_OIC] (by simp)
    (by simp [tokOf])

/-- The n-ary argument loop stops as soon as it can accept the
terminating `MKAY`, whatever fuel remains. -/
theorem parseNaryOpArgs_mkay (fuel : Nat) (tm : Token) (rest : List Token)
    (acc : List ExprNode) (htm : tm.type = TT_MKAY) :
    parseNaryOpArgs fuel (tm :: rest) acc = .ok (acc, rest) := by
  have ha : acceptToken (tm :: rest) TT_MKAY = (true, rest) := by
    simp [acceptToken, htm]
  cases fuel with
  | zero => rw [parseNaryOpArgs.eq_1, ha]
  | succ f => rw [parseNaryOpArgs.eq_2, ha]

/-- Each round of the n-ary argument loop only appends: the result list
is at least as long as the accumulator. -/
theorem parseNaryOpArgs_length :
    ∀ fuel ts acc args ts',
      parseNaryOpArgs fuel ts acc = .ok (args, ts') →
      acc.length ≤ args.length := by
  intro fuel
  induction fuel with
  | zero =>
    intro ts acc args ts' hp
    simp only [parseNaryOpArgs] at hp
    split at hp
    · simp only [Except.ok.injEq, Prod.mk.injEq] at hp
      exact le_of_eq (congrArg List.length hp.1)
    · simp at hp
  | succ f ih =>
    intro ts acc args ts' hp
    simp only [parseNaryOpArgs] at hp
    split at hp
    · simp only [Except.ok.injEq, Prod.mk.injEq] at hp
      exact le_of_eq (congrArg List.length hp.1)
    · rcases han : acceptToken ts TT_AN with ⟨an, ts₂⟩
      rw [han] at hp
      simp only [except_bind_ok] at hp
      obtain ⟨⟨e, ts₃⟩, -, hp⟩ := hp
      have hlen := ih _ _ _ _ hp
      simp only [List.length_append, List.length_cons, List.length_nil] at hlen
      omega

/-- Claim C2: for every n-ary operator leading token, a successful parse
of the operator expression carries at least one argument; and when a
single argument expression is followed immediately by `MKAY`, the n-ary
parse succeeds with exactly that one argument. -/
theorem parseOpExprNode_nary_spec :
    (∀ fuel t rest o opn ts',
      opForToken t.type = some (OpArity.nary, o) →
      parseOpExprNode fuel (t :: rest) = .ok (ExprNode.op opn, ts') →
      1 ≤ opn.args.length) ∧
    (∀ f t ts₀ o e tm rest,
      opForToken t.type = some (OpArity.nary, o) →
      parseExprNode f ts₀ = .ok (e, tm :: rest) → tm.type = TT_MKAY →
      parseOpExprNode (f + 1) (t :: ts₀) =
        .ok (ExprNode.op (OpExprNode.mk o [e]), rest)) := by
  constructor
  · intro fuel t rest o opn ts' hop hp
    cases fuel with
    | zero => simp [parseOpExprNode] at hp
    | succ f =>
      simp only [parseOpExprNode, hop] at hp
      simp only [except_bind_ok] at hp
      obtain ⟨⟨e₁, ts₁⟩, -, hp⟩ := hp
      simp only [except_bind_ok] at hp
      obtain ⟨⟨args, ts₂⟩, hargs, hp⟩ := hp
      have hlen := parseNaryOpArgs_length _ _ _ _ _ hargs
      simp only [List.length_cons, List.length_nil] at hlen
      simp only [Except.ok.injEq, Prod.mk.injEq, ExprNode.op.injEq] at hp
      rw [← hp.1]
      simp only [OpExprNode.args]
      omega
  · intro f t ts₀ o e tm rest hop he htm
    simp only [parseOpExprNode, hop, except_bind_ok]
    exact ⟨(e, tm :: rest), he,
      ⟨([e], rest), parseNaryOpArgs_mkay f tm rest [e] htm, rfl⟩⟩

/-- Witness for C2: `ALL OF WIN MKAY` — an n-ary operator with exactly
one argument — parses successfully to an Op node with one argument. -/
theorem parseOpExprNode_nary_spec_witness :
    parseOpExprNode 2 [tokOf TT_ALLOF, tokOf TT_WIN, tokOf TT_MKAY] =
      .ok (ExprNode.op (OpExprNode.mk OP_AND
        [ExprNode.const (createBooleanConstantNode 1)]), []) :=
  parseOpExprNode_nary_spec.2 1 (tokOf TT_ALLOF)
    [tokOf TT_WIN, tokOf TT_MKAY] OP_AND
    (ExprNode.const (createBooleanConstantNode 1)) (tokOf TT_MKAY) []
    rfl rfl rfl

/-- The `MEBBE` loop appends one guard and one block per clause, so it
preserves equality of the two list lengths. -/
theorem parseMebbeClauses_length :
    ∀ fuel ts gs bs out ts',
      parseMebbeClauses fuel ts gs bs = .ok (out, ts') →
      gs.length = bs.length → out.1.length = out.2.length := by
  intro fuel
  induction fuel with
  | zero =>
    intro ts gs bs out ts' hp hlen
    simp only [parseMebbeClauses] at hp
    split at hp
    · simp at hp
    · simp only [Except.ok.injEq, Prod.mk.injEq] at hp
      rw [← hp.1]
      exact hlen
  | succ f ih =>
    intro ts gs bs out ts' hp hlen
    simp only [parseMebbeClauses] at hp
    split at hp
    · rcases hacc : acceptToken ts TT_MEBBE with ⟨fl, ts₁⟩
      rw [hacc] at hp
      simp only [except_bind_ok] at hp
      obtain ⟨⟨g, ts₂⟩, -, hp⟩ := hp
      simp only [except_bind_ok] at hp
      obtain ⟨ts₃, -, hp⟩ := hp
      obtain ⟨⟨b, ts₄⟩, -, hp⟩ := hp
      exact ih ts₄ (gs ++ [g]) (bs ++ [b]) out ts' hp (by simp [hlen])
    · simp only [Except.ok.injEq, Prod.mk.injEq] at hp
      rw [← hp.1]
      exact hlen

/-- Claim C4: every `IfThenElseStmtNode` produced by a successful parse
has as many guard expressions as elseif blocks — each `MEBBE` clause
contributes exactly one of each. -/
theorem parseIfThenElseStmtNode_invariant :
    ∀ fuel ts s rest, parseIfThenElseStmtNode fuel ts = .ok (s, rest) →
      ∃ n, s = StmtNode.ifThenElseStmt n ∧
        n.guards.length = n.blocks.length := by
  intro fuel ts s rest hp
  cases fuel with
  | zero => simp [parseIfThenElseStmtNode] at hp
  | succ f =>
    simp only [parseIfThenElseStmtNode, except_bind_ok] at hp
    obtain ⟨ts₁, -, hp⟩ := hp
    obtain ⟨ts₂, -, hp⟩ := hp
    obtain ⟨ts₃, -, hp⟩ := hp
    obtain ⟨ts₄, -, hp⟩ := hp
    obtain ⟨⟨yes, ts₅⟩, -, hp⟩ := hp
    simp only [except_bind_ok] at hp
    obtain ⟨⟨⟨gs, bs⟩, ts₆⟩, hmeb, hp⟩ := hp
    have hlen := parseMebbeClauses_length f ts₅ [] [] (gs, bs) ts₆ hmeb rfl
    rcases hacc : acceptToken ts₆ TT_NOWAI with ⟨hasElse, ts₇⟩
    rw [hacc] at hp
    split at hp
    · simp only [except_bind_ok] at hp
      obtain ⟨ts₈, -, hp⟩ := hp
      obtain ⟨⟨no, ts₉⟩, -, hp⟩ := hp
      simp only [except_bind_ok] at hp
      obtain ⟨ts₁₀, -, hp⟩ := hp
      obtain ⟨ts₁₁, -, hp⟩ := hp
      simp only [Except.ok.injEq, Prod.mk.injEq] at hp
      exact ⟨IfThenElseStmtNode.mk yes (some no) gs bs, hp.1.symm, hlen⟩
    · simp only [except_bind_ok] at hp
      obtain ⟨ts₈, -, hp⟩ := hp
      obtain ⟨ts₉, -, hp⟩ := hp
      simp only [Except.ok.injEq, Prod.mk.injEq] at hp
      exact ⟨IfThenElseStmtNode.mk yes none gs bs, hp.1.symm, hlen⟩

/-- Witness for C4 at a concrete `O RLY?` statement with one `MEBBE`
clause: the guard and block lists both have length one. -/
theorem parseIfThenElseStmtNode_invariant_witness :
    ∃ n, StmtNode.ifThenElseStmt
        (IfThenElseStmtNode.mk (BlockNode.mk []) none
          [ExprNode.const (createBooleanConstantNode 1)] [BlockNode.mk []]) =
        StmtNode.ifThenElseStmt n ∧
      n.guards.length = n.blocks.length :=
  parseIfThenElseStmtNode_invariant 4
    [tokOf TT_ORLY, tokOf TT_NEWLINE, tokOf TT_YARLY, tokOf TT_NEWLINE,
     tokOf TT_MEBBE, tokOf TT_WIN, tokOf TT_NEWLINE,
     tokOf TT_OIC, tokOf TT_NEWLINE]
    (StmtNode.ifThenElseStmt
      (IfThenElseStmtNode.mk (BlockNode.mk []) none
        [ExprNode.const (createBooleanConstantNode 1)] [BlockNode.mk []]))
    [] (by rfl)

/-- The `OMG` case loop appends one guard and one block per case: it
preserves equality of the list lengths and never shrinks them. -/
theorem parseOmgCases_length :
    ∀ fuel ts gs bs out ts',
      parseOmgCases fuel ts gs bs = .ok (out, ts') →
      (gs.length = bs.length → out.1.length = out.2.length) ∧
      gs.length ≤ out.1.length := by
  intro fuel
  induction fuel with
  | zero =>
    intro ts gs bs out ts' hp
    simp only [parseOmgCases] at hp
    split at hp
    · simp at hp
    · simp only [Except.ok.injEq, Prod.mk.injEq] at hp
      rw [← hp.1]
      exact ⟨id, le_refl _⟩
  | succ f ih =>
    intro ts gs bs out ts' hp
    simp only [parseOmgCases] at hp
    split at hp
    · rcases hacc : acceptToken ts TT_OMG with ⟨fl, ts₁⟩
      rw [hacc] at hp
      simp only [except_bind_ok] at hp
      obtain ⟨⟨g, ts₂⟩, -, hp⟩ := hp
      simp only [except_bind_ok] at hp
      obtain ⟨ts₃, -, hp⟩ := hp
      obtain ⟨⟨b, ts₄⟩, -, hp⟩ := hp
      have hrec := ih ts₄ (gs ++ [g]) (bs ++ [b]) out ts' hp
      constructor
      · intro hlen
        exact hrec.1 (by simp [hlen])
      · have := hrec.2
        simp only [List.length_append, List.length_cons,
          List.length_nil] at this
        omega
    · simp only [Except.ok.injEq, Prod.mk.injEq] at hp
      rw [← hp.1]
      exact ⟨id, le_refl _⟩

/-- Claim C5: every `SwitchStmtNode` produced by a successful parse has
equally many guards and case blocks, at least one of each; a `WTF?`
statement whose first case keyword is missing fails to parse. -/
theorem parseSwitchStmtNode_invariant :
    (∀ fuel ts s rest, parseSwitchStmtNode fuel ts = .ok (s, rest) →
      ∃ n, s = StmtNode.switchStmt n ∧
        n.guards.length = n.blocks.length ∧ 1 ≤ n.guards.length) ∧
    (∀ fuel w nl t rest, w.type = TT_WTF → nl.type = TT_NEWLINE →
      t.type ≠ TT_OMG →
      ∃ err, parseSwitchStmtNode fuel (w :: nl :: t :: rest) =
        .error err) := by
  constructor
  · intro fuel ts s rest hp
    cases fuel with
    | zero => simp [parseSwitchStmtNode] at hp
    | succ f =>
      simp only [parseSwitchStmtNode, except_bind_ok] at hp
      obtain ⟨ts₁, -, hp⟩ := hp
      obtain ⟨ts₂, -, hp⟩ := hp
      obtain ⟨ts₃, -, hp⟩ := hp
      obtain ⟨⟨g₀, ts₄⟩, -, hp⟩ := hp
      simp only [except_bind_ok] at hp
      obtain ⟨ts₅, -, hp⟩ := hp
      obtain ⟨⟨b₀, ts₆⟩, -, hp⟩ := hp
      simp only [except_bind_ok] at hp
      obtain ⟨⟨⟨gs, bs⟩, ts₇⟩, homg, hp⟩ := hp
      have hrec := parseOmgCases_length f ts₆ [g₀] [b₀] (gs, bs) ts₇ homg
      have hlen : gs.length = bs.length := hrec.1 rfl
      have hone : 1 ≤ gs.length := hrec.2
      rcases hacc : acceptToken ts₇ TT_OMGWTF with ⟨hasDefault, ts₈⟩
      rw [hacc] at hp
      split at hp
      · simp only [except_bind_ok] at hp
        obtain ⟨ts₉, -, hp⟩ := hp
        obtain ⟨⟨d, ts₁₀⟩, -, hp⟩ := hp
        simp only [except_bind_ok] at hp
        obtain ⟨ts₁₁, -, hp⟩ := hp
        obtain ⟨ts₁₂, -, hp⟩ := hp
        simp only [Except.ok.injEq, Prod.mk.injEq] at hp
        exact ⟨SwitchStmtNode.mk gs bs (some d), hp.1.symm, hlen, hone⟩
      · simp only [except_bind_ok] at hp
        obtain ⟨ts₉, -, hp⟩ := hp
        obtain ⟨ts₁₀, -, hp⟩ := hp
        simp only [Except.ok.injEq, Prod.mk.injEq] at hp
        exact ⟨SwitchStmtNode.mk gs bs none, hp.1.symm, hlen, hone⟩
  · intro fuel w nl t rest hw hnl ht
    cases fuel with
    | zero => exact ⟨ParserError.outOfFuel, by simp [parseSwitchStmtNode]⟩
    | succ f =>
      refine ⟨ParserError.unexpectedToken TT_OMG t.line, ?_⟩
      simp [parseSwitchStmtNode, nextToken, hw, hnl, ht, Bind.bind,
        Except.bind]

/-- Witness for C5 at a concrete one-case `WTF?`: the guard and case
lists both have length one. -/
theorem parseSwitchStmtNode_invariant_witness :
    ∃ n, StmtNode.switchStmt
        (SwitchStmtNode.mk [ExprNode.const (createBooleanConstantNode 1)]
          [BlockNode.mk []] none) = StmtNode.switchStmt n ∧
      n.guards.length = n.blocks.length ∧ 1 ≤ n.guards.length :=
  parseSwitchStmtNode_invariant.1 4
    [tokOf TT_WTF, tokOf TT_NEWLINE,
     tokOf TT_OMG, tokOf TT_WIN, tokOf TT_NEWLINE,
     tokOf TT_OIC, tokOf TT_NEWLINE]
    (StmtNode.switchStmt
      (SwitchStmtNode.mk [ExprNode.const (createBooleanConstantNode 1)]
        [BlockNode.mk []] none))
    [] (by rfl)

/-- Claim C6: every `DeclarationStmtNode` produced by a successful parse
has at most one of init expression and init type non-null; an `ITZ`
clause yields the expression only, an `ITZ A` clause the type only, and
the absence of a clause yields neither. -/
theorem parseDeclarationStmtNode_exclusive :
    (∀ fuel ts s rest, parseDeclarationStmtNode fuel ts = .ok (s, rest) →
      ∃ d, s = StmtNode.declarationStmt d ∧
        ((∃ e, d.expr = some e ∧ d.itype = none) ∨
         (∃ tn, d.itype = some tn ∧ d.expr = none) ∨
         (d.expr = none ∧ d.itype = none))) ∧
    (∀ fuel i hh tt x rest s r, i.type = TT_IDENTIFIER →
      hh.type = TT_HASA → tt.type = TT_IDENTIFIER → x.type = TT_ITZ →
      parseDeclarationStmtNode fuel (i :: hh :: tt :: x :: rest) =
        .ok (s, r) →
      ∃ d, s = StmtNode.declarationStmt d ∧
        (∃ e, d.expr = some e) ∧ d.itype = none) ∧
    (∀ fuel i hh tt x rest s r, i.type = TT_IDENTIFIER →
      hh.type = TT_HASA → tt.type = TT_IDENTIFIER → x.type = TT_ITZA →
      parseDeclarationStmtNode fuel (i :: hh :: tt :: x :: rest) =
        .ok (s, r) →
      ∃ d, s = StmtNode.declarationStmt d ∧
        d.expr = none ∧ (∃ tn, d.itype = some tn)) := by
  refine ⟨?_, ?_, ?_⟩
  · intro fuel ts s rest hp
    cases fuel with
    | zero => simp [parseDeclarationStmtNode] at hp
    | succ f =>
      simp only [parseDeclarationStmtNode, except_bind_ok] at hp
      obtain ⟨⟨scope, ts₁⟩, -, hp⟩ := hp
      simp only [except_bind_ok] at hp
      obtain ⟨ts₂, -, hp⟩ := hp
      obtain ⟨⟨target, ts₃⟩, -, hp⟩ := hp
      rcases hitz : acceptToken ts₃ TT_ITZ with ⟨fl, ts₄⟩
      rw [hitz] at hp
      cases fl with
      | true =>
        simp only [except_bind_ok] at hp
        obtain ⟨⟨e, ts₅⟩, -, hp⟩ := hp
        simp only [except_bind_ok] at hp
        obtain ⟨ts₆, -, hp⟩ := hp
        simp only [Except.ok.injEq, Prod.mk.injEq] at hp
        exact ⟨DeclarationStmtNode.mk scope target (some e) none,
          hp.1.symm, Or.inl ⟨e, rfl, rfl⟩⟩
      | false =>
        rcases hitza : acceptToken ts₃ TT_ITZA with ⟨fl₂, ts₄'⟩
        rw [hitza] at hp
        cases fl₂ with
        | true =>
          simp only [except_bind_ok] at hp
          obtain ⟨⟨tn, ts₅⟩, -, hp⟩ := hp
          simp only [except_bind_ok] at hp
          obtain ⟨ts₆, -, hp⟩ := hp
          simp only [Except.ok.injEq, Prod.mk.injEq] at hp
          exact ⟨DeclarationStmtNode.mk scope target none (some tn),
            hp.1.symm, Or.inr (Or.inl ⟨tn, rfl, rfl⟩)⟩
        | false =>
          simp only [except_bind_ok] at hp
          obtain ⟨ts₄'', -, hp⟩ := hp
          simp only [Except.ok.injEq, Prod.mk.injEq] at hp
          exact ⟨DeclarationStmtNode.mk scope target none none,
            hp.1.symm, Or.inr (Or.inr ⟨rfl, rfl⟩)⟩
  · intro fuel i hh tt x rest s r hi hhh htt hx hp
    cases fuel with
    | zero => simp [parseDeclarationStmtNode] at hp
    | succ f =>
      simp only [parseDeclarationStmtNode, except_bind_ok] at hp
      obtain ⟨⟨scope, ts₁⟩, hsc, hp⟩ := hp
      obtain ⟨ti, heq₁, -, -⟩ := parseIdentifierNode_ok.mp hsc
      injection heq₁ with heqa heqb
      subst heqa
      subst heqb
      simp only [except_bind_ok] at hp
      obtain ⟨ts₂, hha, hp⟩ := hp
      obtain ⟨ta, heq₂, -⟩ := nextToken_ok.mp hha
      injection heq₂ with heqc heqd
      subst heqc
      subst heqd
      obtain ⟨⟨target, ts₃⟩, htg, hp⟩ := hp
      obtain ⟨tb, heq₃, -, -⟩ := parseIdentifierNode_ok.mp htg
      injection heq₃ with heqe heqf
      subst heqe
      subst heqf
      rw [show acceptToken (x :: rest) TT_ITZ = (true, rest) by
        simp [acceptToken, hx]] at hp
      simp only [except_bind_ok] at hp
      obtain ⟨⟨e, ts₅⟩, -, hp⟩ := hp
      simp only [except_bind_ok] at hp
      obtain ⟨ts₆, -, hp⟩ := hp
      simp only [Except.ok.injEq, Prod.mk.injEq] at hp
      exact ⟨DeclarationStmtNode.mk scope target (some e) none,
        hp.1.symm, ⟨e, rfl⟩, rfl⟩
  · intro fuel i hh tt x rest s r hi hhh htt hx hp
    cases fuel with
    | zero => simp [parseDeclarationStmtNode] at hp
    | succ f =>
      simp only [parseDeclarationStmtNode, except_bind_ok] at hp
      obtain ⟨⟨scope, ts₁⟩, hsc, hp⟩ := hp
      obtain ⟨ti, heq₁, -, -⟩ := parseIdentifierNode_ok.mp hsc
      injection heq₁ with heqa heqb
      subst heqa
      subst heqb
      simp only [except_bind_ok] at hp
      obtain ⟨ts₂, hha, hp⟩ := hp
      obtain ⟨ta, heq₂, -⟩ := nextToken_ok.mp hha
      injection heq₂ with heqc heqd
      subst heqc
      subst heqd
      obtain ⟨⟨target, ts₃⟩, htg, hp⟩ := hp
      obtain ⟨tb, heq₃, -, -⟩ := parseIdentifierNode_ok.mp htg
      injection heq₃ with heqe heqf
      subst heqe
      subst heqf
      rw [show acceptToken (x :: rest) TT_ITZ = (false, x :: rest) by
        simp [acceptToken, hx]] at hp
      rw [show acceptToken (x :: rest) TT_ITZA = (true, rest) by
        simp [acceptToken, hx]] at hp
      simp only [except_bind_ok] at hp
      obtain ⟨⟨tn, ts₅⟩, -, hp⟩ := hp
      simp only [except_bind_ok] at hp
      obtain ⟨ts₆, -, hp⟩ := hp
      simp only [Except.ok.injEq, Prod.mk.injEq] at hp
      exact ⟨DeclarationStmtNode.mk scope target none (some tn),
        hp.1.symm, rfl, ⟨tn, rfl⟩⟩

/-- Witness for C6 at a concrete `I HAS A X ITZ A NUMBR` declaration:
the parsed node has a type and no expression. -/
theorem parseDeclarationStmtNode_exclusive_witness :
    ∃ d, StmtNode.declarationStmt
        (DeclarationStmtNode.mk ⟨"", "", 1⟩ ⟨"", "", 1⟩ none
          (some ⟨CT_INTEGER⟩)) = StmtNode.declarationStmt d ∧
      d.expr = none ∧ (∃ tn, d.itype = some tn) :=
  parseDeclarationStmtNode_exclusive.2.2 1 (tokOf TT_IDENTIFIER)
    (tokOf TT_HASA) (tokOf TT_IDENTIFIER) (tokOf TT_ITZA)
    [tokOf TT_NUMBR, tokOf TT_NEWLINE]
    (StmtNode.declarationStmt
      (DeclarationStmtNode.mk ⟨"", "", 1⟩ ⟨"", "", 1⟩ none
        (some ⟨CT_INTEGER⟩)))
    [] rfl rfl rfl rfl (by rfl)

/-- Claim C7: the loop-closing sequence succeeds only when the closing
identifier's image equals the loop-opening name (so every `LoopStmtNode`
of a successful parse had matching opener and closer); on mismatch the
parse fails with a fatal error reported at the closing identifier's
line; and every successful `parseLoopStmtNode` went through this
check for the name stored in the returned node. -/
theorem parseLoopStmtNode_name_spec :
    (∀ name ts ts', parseLoopClose name ts = .ok ts' →
      ∃ t c rest, ts = t :: c :: rest ∧ t.type = TT_IMOUTTAYR ∧
        c.type = TT_IDENTIFIER ∧ c.image = name.image) ∧
    (∀ name t c rest, t.type = TT_IMOUTTAYR → c.type = TT_IDENTIFIER →
      c.image ≠ name.image →
      parseLoopClose name (t :: c :: rest) =
        .error (.loopNameMismatch name.image c.image c.line)) ∧
    (∀ fuel ts s rest, parseLoopStmtNode fuel ts = .ok (s, rest) →
      ∃ n ts₆, s = StmtNode.loopStmt n ∧
        parseLoopClose n.name ts₆ = .ok rest) := by
  refine ⟨?_, ?_, ?_⟩
  · intro name ts ts' hp
    simp only [parseLoopClose, except_bind_ok] at hp
    obtain ⟨ts₁, ht, hp⟩ := hp
    rw [nextToken_ok] at ht
    obtain ⟨t, rfl, htk⟩ := ht
    obtain ⟨⟨closer, ts₂⟩, hc, hp⟩ := hp
    rw [parseIdentifierNode_ok] at hc
    obtain ⟨c, rfl, hck, rfl⟩ := hc
    split at hp
    · exact ⟨t, c, ts₂, rfl, htk, hck, by assumption⟩
    · simp at hp
  · intro name t c rest ht hc hne
    simp [parseLoopClose, nextToken, parseIdentifierNode, ht, hc, hne,
      Bind.bind, Except.bind]
  · intro fuel ts s rest hp
    cases fuel with
    | zero => simp [parseLoopStmtNode] at hp
    | succ f =>
      simp only [parseLoopStmtNode, except_bind_ok] at hp
      obtain ⟨ts₁, -, hp⟩ := hp
      obtain ⟨⟨name, ts₂⟩, -, hp⟩ := hp
      simp only [except_bind_ok] at hp
      obtain ⟨⟨⟨var, upd⟩, ts₃⟩, -, hp⟩ := hp
      simp only [except_bind_ok] at hp
      obtain ⟨⟨guard, ts₄⟩, -, hp⟩ := hp
      simp only [except_bind_ok] at hp
      obtain ⟨ts₅, -, hp⟩ := hp
      obtain ⟨⟨body, ts₆⟩, -, hp⟩ := hp
      simp only [except_bind_ok] at hp
      obtain ⟨ts₇, hclose, hp⟩ := hp
      simp only [Except.ok.injEq, Prod.mk.injEq] at hp
      refine ⟨LoopStmtNode.mk name var guard upd body, ts₆,
        hp.1.symm, ?_⟩
      rw [LoopStmtNode.name, ← hp.2]
      exact hclose

/-- Witness for C7: with loop name `A`, a closing identifier `B` on line
3 makes `parseLoopClose` fail with a mismatch diagnostic carrying both
images and line 3. -/
theorem parseLoopStmtNode_name_spec_witness :
    parseLoopClose ⟨"A", "", 1⟩
        [tokOf TT_IMOUTTAYR, ⟨TT_IDENTIFIER, "B", 0, "", 3⟩,
         tokOf TT_NEWLINE] =
      .error (.loopNameMismatch "A" "B" 3) :=
  parseLoopStmtNode_name_spec.2.1 ⟨"A", "", 1⟩ (tokOf TT_IMOUTTAYR)
    ⟨TT_IDENTIFIER, "B", 0, "", 3⟩ [tokOf TT_NEWLINE] rfl rfl
    (by decide)

/-- The block parser at positive fuel stops immediately on a closer,
consuming nothing and yielding the empty block. -/
theorem parseBlockNode_stop (f : Nat) (t : Token) (rest : List Token)
    (closers : List TokenType) (hm : t.type ∈ closers) :
    parseBlockNode (f + 1) (t :: rest) closers =
      .ok (BlockNode.mk [], t :: rest) := by
  simp [parseBlockNode, hm]

/-- Claim C1: `parseMainNode` succeeds exactly on `HAI`, a numeric
version token, a newline, a block whose parse stops at `KTHXBYE`
followed by the end-of-file token, and then returns the `MainNode` root
wrapping that block; the empty program yields an empty statement
list. -/
theorem parseMainNode_spec :
    (∀ fuel ts m, parseMainNode fuel ts = .ok m ↔
      ∃ th tv tnl rest blk tk te rest₂,
        ts = th :: tv :: tnl :: rest ∧ th.type = TT_HAI ∧
        (tv.type = TT_INTEGER ∨ tv.type = TT_FLOAT) ∧
        tnl.type = TT_NEWLINE ∧
        parseBlockNode fuel rest [TT_KTHXBYE] =
          .ok (blk, tk :: te :: rest₂) ∧
        tk.type = TT_KTHXBYE ∧ te.type = TT_EOF ∧ m = ⟨blk⟩) ∧
    (∀ fuel th tv tnl tk te, 0 < fuel → th.type = TT_HAI →
      (tv.type = TT_INTEGER ∨ tv.type = TT_FLOAT) →
      tnl.type = TT_NEWLINE → tk.type = TT_KTHXBYE → te.type = TT_EOF →
      parseMainNode fuel [th, tv, tnl, tk, te] =
        .ok ⟨BlockNode.mk []⟩) := by
  constructor
  · intro fuel ts m
    constructor
    · intro hp
      simp only [parseMainNode, except_bind_ok] at hp
      obtain ⟨ts₁, hhai, hp⟩ := hp
      rw [nextToken_ok] at hhai
      obtain ⟨th, rfl, hth⟩ := hhai
      obtain ⟨ts₂, hver, hp⟩ := hp
      rw [nextVersionToken_ok] at hver
      obtain ⟨tv, rfl, htv⟩ := hver
      obtain ⟨ts₃, hnl, hp⟩ := hp
      rw [nextToken_ok] at hnl
      obtain ⟨tnl, rfl, htnl⟩ := hnl
      obtain ⟨⟨blk, ts₄⟩, hblk, hp⟩ := hp
      simp only [except_bind_ok] at hp
      obtain ⟨ts₅, hk, hp⟩ := hp
      rw [nextToken_ok] at hk
      obtain ⟨tk, rfl, htk⟩ := hk
      obtain ⟨ts₆, he, hp⟩ := hp
      rw [nextToken_ok] at he
      obtain ⟨te, rfl, hte⟩ := he
      simp only [Except.ok.injEq] at hp
      exact ⟨th, tv, tnl, ts₃, blk, tk, te, ts₆, rfl, hth,
        htv, htnl, hblk, htk, hte, hp.symm⟩
    · rintro ⟨th, tv, tnl, rest, blk, tk, te, rest₂, rfl, hth, htv, htnl,
        hblk, htk, hte, rfl⟩
      simp only [parseMainNode, except_bind_ok]
      refine ⟨tv :: tnl :: rest, nextToken_ok.mpr ⟨th, rfl, hth⟩,
        tnl :: rest, nextVersionToken_ok.mpr ⟨tv, rfl, htv⟩,
        rest, nextToken_ok.mpr ⟨tnl, rfl, htnl⟩,
        (blk, tk :: te :: rest₂), hblk,
        te :: rest₂, nextToken_ok.mpr ⟨tk, rfl, htk⟩,
        rest₂, nextToken_ok.mpr ⟨te, rfl, hte⟩, rfl⟩
  · intro fuel th tv tnl tk te hf hth htv htnl htk hte
    cases fuel with
    | zero => exact absurd hf (by simp)
    | succ f =>
      have hstop := parseBlockNode_stop f tk [te] [TT_KTHXBYE]
        (by simp [htk])
      simp only [parseMainNode, except_bind_ok]
      exact ⟨tv :: tnl :: tk :: te :: [],
        nextToken_ok.mpr ⟨th, rfl, hth⟩,
        tnl :: tk :: te :: [], nextVersionToken_ok.mpr ⟨tv, rfl, htv⟩,
        tk :: te :: [], nextToken_ok.mpr ⟨tnl, rfl, htnl⟩,
        (BlockNode.mk [], tk :: te :: []), hstop,
        te :: [], nextToken_ok.mpr ⟨tk, rfl, htk⟩,
        [], nextToken_ok.mpr ⟨te, rfl, hte⟩, rfl⟩

/-- Witness for C1: the empty program `HAI 1 NEWLINE KTHXBYE EOF`
parses to the root wrapping an empty block. -/
theorem parseMainNode_spec_witness :
    parseMainNode 1 [tokOf TT_HAI, tokOf TT_INTEGER, tokOf TT_NEWLINE,
      tokOf TT_KTHXBYE, tokOf TT_EOF] = .ok ⟨BlockNode.mk []⟩ :=
  parseMainNode_spec.2 1 (tokOf TT_HAI) (tokOf TT_INTEGER)
    (tokOf TT_NEWLINE) (tokOf TT_KTHXBYE) (tokOf TT_EOF)
    (by simp) rfl (Or.inl rfl) rfl rfl rfl

end Lci
